import Mathlib

/-!
# go-ssb-room: connection gate and members admin handlers

A shallow embedding of

* `roomsrv/init_network.go` : the closure `mkHandler` of `(*Server).initNetwork`,
* `web/handlers/admin/members.go` : `membersHandler.add`, `changeRole`, `overview`, `remove`.

Calls into collaborators whose code is not part of these files (the configuration and
members stores, the address decoder, the feed reference parser, the role parser, the
renderer) are taken as function parameters; every call made to a collaborator is
recorded in a call log so that statements of the form "the store is not consulted"
can be expressed.  The mutex `closedMu` held by `mkHandler` is not modelled.
-/

namespace SsbRoom

/-! ## Shared data model -/

/-- Modelled from the spec: the declaration of `refs.FeedRef` is not in the source.
An identity is an opaque public-key value (bytes) with an algorithm tag. -/
structure FeedRef where
  ID : List Nat
  Algo : String
deriving DecidableEq, Repr

/-- Modelled from the spec: `FeedRef.Equal` is declared outside the source; the spec
gives "equality by byte-exact comparison of both fields". -/
def FeedRef.Equal (a b : FeedRef) : Bool :=
  decide (a.ID = b.ID) && decide (a.Algo = b.Algo)

/-- Go error values that occur in the embedded code.  `wrapped` is an error built by
`fmt.Errorf` with the `%w` verb, `errorString` one built without it. -/
inductive GoError where
  | errorString (msg : String)
  | wrapped (msg : String) (inner : GoError)
  | ErrNotFound
  | ErrAlreadyAdded (ref : FeedRef)
  | ErrBadRequest (Where : String) (Details : GoError)
  | ErrForbidden (Details : GoError)
  | DatabaseError (Reason : GoError)
deriving DecidableEq, Repr

deriving instance DecidableEq for Except

/-- The test `errors.Is(err, roomdb.ErrNotFound)`: follows the chain of wrapped errors. -/
def errorsIsNotFound : GoError → Bool
  | .ErrNotFound => true
  | .wrapped _ inner => errorsIsNotFound inner
  | _ => false

/-- The test `errors.As(err, &aa)` with `aa` of type `roomdb.ErrAlreadyAdded`. -/
def errorsAsAlreadyAdded : GoError → Bool
  | .ErrAlreadyAdded _ => true
  | .wrapped _ inner => errorsAsAlreadyAdded inner
  | _ => false

/-- Modelled from the spec: the declaration of `roomdb.PrivacyMode` is not in the
source.  It is an integer type with the three recognised modes; every other value of
the type is `unrecognized`. -/
inductive PrivacyMode where
  | ModeOpen
  | ModeCommunity
  | ModeRestricted
  | unrecognized (raw : Nat)
deriving DecidableEq, Repr

/-- Modelled from the spec: the declaration of `roomdb.Role` is not in the source.
The three roles of the hierarchy plus the zero value of the type. -/
inductive Role where
  | RoleUnknown
  | RoleMember
  | RoleModerator
  | RoleAdmin
deriving DecidableEq, Repr

/-- Modelled from the spec: `roomdb.Member`, a membership record (ID, Identity, Role). -/
structure Member where
  ID : Int
  Role : Role
  PubKey : FeedRef
deriving DecidableEq, Repr

/-! ## roomsrv/init_network.go -/

/-- The two handlers a connection can be given: `&s.master` and `&s.public`. -/
inductive Handler where
  | master
  | public
deriving DecidableEq, Repr

/-- Calls `mkHandler` makes to its collaborators. -/
inductive NetCall where
  | GetFeedRefFromAddr (addr : String)
  | GetPrivacyMode
  | GetByFeed (ref : FeedRef)
deriving DecidableEq, Repr

/-- The parts of `Server` read by `mkHandler`.  `GetFeedRefFromAddr` stands for
`network.GetFeedRefFromAddr`, `GetPrivacyMode` for the result of
`s.Config.GetPrivacyMode(nil)` and `GetByFeed` for `s.authorizer.GetByFeed(s.rootCtx, _)`. -/
structure Server where
  keyPairFeed : FeedRef
  GetFeedRefFromAddr : String → Except GoError FeedRef
  GetPrivacyMode : Except GoError PrivacyMode
  GetByFeed : FeedRef → Except GoError Member

/-- The pair `(muxrpc.Handler, error)` returned by `mkHandler`, with the log of
collaborator calls made while computing it. -/
structure Decision where
  handler : Option Handler
  err : Option GoError
  calls : List NetCall
deriving DecidableEq, Repr

/-- The closure `mkHandler` of `initNetwork`; `remoteAddr` is `conn.RemoteAddr()`. -/
def mkHandler (s : Server) (remoteAddr : String) : Decision :=
  match s.GetFeedRefFromAddr remoteAddr with
  | .error err =>
    ⟨none, some (.wrapped "sbot: expected an address containing an shs-bs addr" err),
      [.GetFeedRefFromAddr remoteAddr]⟩
  | .ok remote =>
    if s.keyPairFeed.Equal remote then
      ⟨some .master, none, [.GetFeedRefFromAddr remoteAddr]⟩
    else
      match s.GetPrivacyMode with
      | .error _ =>
        ⟨none, some (.errorString "running with unknown privacy mode"),
          [.GetFeedRefFromAddr remoteAddr, .GetPrivacyMode]⟩
      | .ok pm =>
        if pm = PrivacyMode.ModeRestricted then
          match s.GetByFeed remote with
          | .error _ =>
            ⟨none, some (.errorString "access restricted to members"),
              [.GetFeedRefFromAddr remoteAddr, .GetPrivacyMode, .GetByFeed remote]⟩
          | .ok _ =>
            ⟨some .public, none,
              [.GetFeedRefFromAddr remoteAddr, .GetPrivacyMode, .GetByFeed remote]⟩
        else
          ⟨some .public, none, [.GetFeedRefFromAddr remoteAddr, .GetPrivacyMode]⟩

/-- Modelled from the spec: the validity test of a privacy mode, part of the
configuration code that is not in the source.  Open, Community and Restricted are the
recognised modes; any other value is reported as an error. -/
def PrivacyMode.IsValid : PrivacyMode → Option GoError
  | .ModeOpen => none
  | .ModeCommunity => none
  | .ModeRestricted => none
  | .unrecognized _ => some (.errorString "no such privacy mode")

/-- Modelled from the spec: the configuration behind `s.Config` is not in the source.
`stored` is the privacy policy value the configuration holds, or the failure to load it. -/
structure Config where
  stored : Except GoError PrivacyMode

/-- Modelled from the spec: the read `s.Config.GetPrivacyMode`, whose code is not in the
source.  A policy that holds an unrecognised mode is a configuration error: the read
fails and no mode value is handed to the gate. -/
def Config.GetPrivacyMode (c : Config) : Except GoError PrivacyMode :=
  match c.stored with
  | .error err => .error err
  | .ok pm =>
    match pm.IsValid with
    | some err => .error err
    | none => .ok pm

/-- Modelled from the spec: the membership store behind `roomdb.MembersService` is not
in the source.  Records with unique identities and store-assigned IDs that are never
reused. -/
structure MembersStore where
  records : List Member
  nextID : Int
deriving DecidableEq, Repr

/-- Modelled from the spec: the empty membership store. -/
def MembersStore.empty : MembersStore := ⟨[], 1⟩

/-- Modelled from the spec: lookup of a record by identity, `NotFound` when absent. -/
def MembersStore.GetByFeed (st : MembersStore) (ref : FeedRef) : Except GoError Member :=
  match st.records.find? (fun m => decide (m.PubKey = ref)) with
  | some m => .ok m
  | none => .error .ErrNotFound

/-- Modelled from the spec: `Add(identity, role)` fails `AlreadyAdded` if the identity is
present, otherwise allocates a new ID and stores the record. -/
def MembersStore.Add (st : MembersStore) (ref : FeedRef) (role : Role) :
    Except GoError Int × MembersStore :=
  if st.records.any (fun m => decide (m.PubKey = ref)) then
    (.error (.ErrAlreadyAdded ref), st)
  else
    (.ok st.nextID, ⟨st.records ++ [⟨st.nextID, role, ref⟩], st.nextID + 1⟩)

/-! ## strconv.ParseInt (Go standard library), base 10, bit size 64 -/

/-- The digit loop of `strconv.ParseUint(s, 10, 64)` over the bytes of `s`, with the
accumulator `n`; unsigned 64-bit arithmetic is written with an explicit modulus. -/
def parseUintLoop : List Char → Nat → Except GoError Nat
  | [], n => .ok n
  | c :: cs, n =>
    if '0' ≤ c ∧ c ≤ '9' then
      let d := c.toNat - '0'.toNat
      if n ≥ (2 ^ 64 - 1) / 10 + 1 then
        .error (.errorString "value out of range")
      else
        let n0 := (n * 10) % 2 ^ 64
        let n1 := (n0 + d) % 2 ^ 64
        if n1 < n0 ∨ n1 > 2 ^ 64 - 1 then
          .error (.errorString "value out of range")
        else
          parseUintLoop cs n1
    else
      .error (.errorString "invalid syntax")

/-- The function `strconv.ParseUint(s, 10, 64)`: the empty string is a syntax error,
otherwise the digit loop decides. -/
def ParseUint (s : List Char) : Except GoError Nat :=
  match s with
  | [] => .error (.errorString "invalid syntax")
  | _ => parseUintLoop s 0

/-- The function `strconv.ParseInt(s, 10, 64)`: an optional sign followed by at least one
decimal digit, the value in the range of a signed 64-bit integer. -/
def ParseInt (s : String) : Except GoError Int :=
  match s.toList with
  | [] => .error (.errorString "invalid syntax")
  | c :: cs =>
    let neg := decide (c = '-')
    let rest := if c = '+' ∨ c = '-' then cs else c :: cs
    match ParseUint rest with
    | .error err => .error err  -- a range error of ParseUint stays a range error
    | .ok un =>
      if ¬ neg ∧ un ≥ 2 ^ 63 then .error (.errorString "value out of range")
      else if neg ∧ un > 2 ^ 63 then .error (.errorString "value out of range")
      else .ok (if neg then - (un : Int) else (un : Int))

/-! ## web/handlers/admin/members.go -/

/-- The type `url.Values`: a multi-map from keys to lists of values. -/
abbrev Values := List (String × List String)

/-- The method `url.Values.Get`: the first value stored under `key`, or the empty string. -/
def Values.Get (v : Values) (key : String) : String :=
  match v.lookup key with
  | some (x :: _) => x
  | _ => ""

/-- The parts of `*http.Request` read by the handlers.  `ParseForm` is the result of
`req.ParseForm()`: the populated `req.Form`, or the error together with the values that
did parse, which `net/http` leaves in `req.Form` all the same.  `URLQuery` is
`req.URL.Query()` and `currentMember` is `members.FromContext(req.Context())`. -/
structure Request where
  Method : String
  ParseForm : Except (GoError × Values) Values
  URLQuery : Values
  currentMember : Option Member

/-- The field `req.Form` once `req.ParseForm()` has run, whether it failed or not; it is
what `req.FormValue` reads. -/
def Request.Form (req : Request) : Values :=
  match req.ParseForm with
  | .ok form => form
  | .error (_, form) => form

/-- What a handler writes to the `http.ResponseWriter`: `Error code err` for
`h.r.Error(w, req, code, err)`, `Redirect url code` for `http.Redirect(w, req, url, code)`. -/
inductive Response where
  | Error (code : Nat) (err : GoError)
  | Redirect (url : String) (code : Nat)
deriving DecidableEq, Repr

/-- The HTTP status code of a response. -/
def Response.status : Response → Nat
  | .Error code _ => code
  | .Redirect _ code => code

/-- Calls a handler makes to `roomdb.MembersService`. -/
inductive DBCall where
  | Add (ref : FeedRef) (role : Role)
  | SetRole (id : Int) (role : Role)
  | RemoveID (id : Int)
  | List
deriving DecidableEq, Repr

/-- The interface `roomdb.MembersService` as used by the handlers, over a store state `σ`:
each mutating operation returns its result and the state it leaves behind. -/
structure MembersService (σ : Type) where
  Add : σ → FeedRef → Role → Except GoError Int × σ
  SetRole : σ → Int → Role → Option GoError × σ
  RemoveID : σ → Int → Option GoError × σ
  List : σ → Except GoError (List Member)

/-- The struct `membersHandler`.  The renderer `r` is represented by `Response.Error`.
The remaining fields are functions declared outside the source: `ParseFeedRef` is
`refs.ParseFeedRef`, `UnmarshalText` is `(*roomdb.Role).UnmarshalText` and
`memberDetailsURL id` is `urlTo(router.AdminMemberDetails, "id", id).String()`. -/
structure membersHandler (σ : Type) where
  db : MembersService σ
  ParseFeedRef : String → Except GoError FeedRef
  UnmarshalText : String → Except GoError Role
  memberDetailsURL : Int → String

/-- The response of a handler, the store state after it ran and the store calls it made. -/
structure Outcome (σ : Type) where
  resp : Response
  db : σ
  calls : List DBCall

/-- The constant `redirectToMembers`. -/
def redirectToMembers : String := "/admin/members"

/-- The handler `membersHandler.add`. -/
def membersHandler.add {σ : Type} (h : membersHandler σ) (st : σ) (req : Request) : Outcome σ :=
  if req.Method ≠ "POST" then
    ⟨.Error 400 (.ErrBadRequest "HTTP Method" (.errorString ("expected POST not " ++ req.Method))),
      st, []⟩
  else
    match req.ParseForm with
    | .error (err, _) => ⟨.Error 400 (.ErrBadRequest "Form data" err), st, []⟩
    | .ok form =>
      let newEntry := Values.Get form "pub_key"
      match h.ParseFeedRef newEntry with
      | .error err => ⟨.Error 400 (.ErrBadRequest "Public Key" err), st, []⟩
      | .ok newEntryParsed =>
        match h.db.Add st newEntryParsed .RoleMember with
        | (.error err, st1) =>
          let code := if errorsAsAlreadyAdded err then 400 else 500
          ⟨.Error code err, st1, [.Add newEntryParsed .RoleMember]⟩
        | (.ok _, st1) =>
          ⟨.Redirect redirectToMembers 302, st1, [.Add newEntryParsed .RoleMember]⟩

/-- The handler `membersHandler.changeRole`. -/
def membersHandler.changeRole {σ : Type} (h : membersHandler σ) (st : σ) (req : Request) :
    Outcome σ :=
  if req.Method ≠ "POST" then
    ⟨.Error 400 (.ErrBadRequest "HTTP Method" (.errorString ("expected POST not " ++ req.Method))),
      st, []⟩
  else
    match req.ParseForm with
    | .error (err, _) => ⟨.Error 400 (.ErrBadRequest "Form data" err), st, []⟩
    | .ok form =>
      let notAdmin : Bool :=
        match req.currentMember with
        | none => true
        | some currentMember => decide (currentMember.Role ≠ Role.RoleAdmin)
      if notAdmin then
        ⟨.Error 403 (.ErrForbidden (.errorString "not an admin")), st, []⟩
      else
        match ParseInt (Values.Get req.URLQuery "id") with
        | .error err => ⟨.Error 400 (.ErrBadRequest "id" err), st, []⟩
        | .ok memberID =>
          match h.UnmarshalText (Values.Get form "role") with
          | .error err => ⟨.Error 400 (.ErrBadRequest "role" err), st, []⟩
          | .ok role =>
            match h.db.SetRole st memberID role with
            | (some err, st1) => ⟨.Error 500 (.DatabaseError err), st1, [.SetRole memberID role]⟩
            | (none, st1) =>
              ⟨.Redirect (h.memberDetailsURL memberID) 307, st1, [.SetRole memberID role]⟩

/-- The statement `lst[i], lst[j] = lst[j], lst[i]`; `none` is the run-time panic of an
index out of range. -/
def swapAt {α : Type} (lst : List α) (i j : Nat) : Option (List α) :=
  match lst[i]?, lst[j]? with
  | some a, some b => some ((lst.set i b).set j a)
  | _, _ => none

/-- The loop `for i, j := 0, len(lst)-1; i < j; i, j = i+1, j-1` of `overview`, entered
with the current values of `i` and `j`. -/
def reverseLoop {α : Type} (lst : List α) (i : Nat) (j : Int) : Option (List α) :=
  if (i : Int) < j then
    match swapAt lst i j.toNat with
    | some lst1 => reverseLoop lst1 (i + 1) (j - 1)
    | none => none
  else
    some lst
termination_by (j - (i : Int)).toNat
decreasing_by omega

/-- The handler `membersHandler.overview`.  `paginate` is the helper of the same package,
declared outside the source, and `decorate` stands for the two assignments to `pageData`
(the CSRF field and `AllRoles`).  The outer `none` is a run-time panic. -/
def membersHandler.overview {σ P : Type} (h : membersHandler σ)
    (paginate : List Member → Nat → Values → Except GoError P) (decorate : P → P)
    (st : σ) (req : Request) : Option (Except GoError P) :=
  match h.db.List st with
  | .error err => some (.error err)
  | .ok lst =>
    match reverseLoop lst 0 ((lst.length : Int) - 1) with
    | none => none
    | some lst1 =>
      match paginate lst1 lst1.length req.URLQuery with
      | .error err => some (.error err)
      | .ok pageData => some (.ok (decorate pageData))

/-- The handler `membersHandler.remove`.  On a form or ID parse failure the source builds
an `ErrBadRequest` value, does not use it, and redirects. -/
def membersHandler.remove {σ : Type} (h : membersHandler σ) (st : σ) (req : Request) :
    Outcome σ :=
  match req.ParseForm with
  | .error _ => ⟨.Redirect redirectToMembers 302, st, []⟩
  | .ok form =>
    match ParseInt (Values.Get form "id") with
    | .error _ => ⟨.Redirect redirectToMembers 302, st, []⟩
    | .ok id =>
      match h.db.RemoveID st id with
      | (some err, st1) =>
        if ¬ errorsIsNotFound err then
          ⟨.Error 500 err, st1, [.RemoveID id]⟩
        else
          ⟨.Redirect redirectToMembers 404, st1, [.RemoveID id]⟩
      | (none, st1) => ⟨.Redirect redirectToMembers 302, st1, [.RemoveID id]⟩

/-! ## Concrete inputs used in the evaluations below -/

/-- The identity of the server in the examples. -/
def selfFeed : FeedRef := ⟨[1, 2, 3], "ed25519"⟩

/-- A foreign identity in the examples. -/
def peerFeed : FeedRef := ⟨[7, 7, 7], "ed25519"⟩

/-- An address decoder for the examples: "self" and "peer" carry the two identities,
every other address carries none. -/
def demoGetFeedRef (addr : String) : Except GoError FeedRef :=
  if addr = "self" then .ok selfFeed
  else if addr = "peer" then .ok peerFeed
  else .error (.errorString "not a secret-handshake address")

/-- A server over the spec-modelled membership store `st` whose configuration read gives `pm`. -/
def demoServer (pm : Except GoError PrivacyMode) (st : MembersStore) : Server :=
  ⟨selfFeed, demoGetFeedRef, pm, st.GetByFeed⟩

/-- Modelled from the spec: `SetRole(id, role)` fails `NotFound` if no record has the ID,
otherwise replaces the role field only. -/
def MembersStore.SetRole (st : MembersStore) (id : Int) (role : Role) :
    Option GoError × MembersStore :=
  if st.records.any (fun m => decide (m.ID = id)) then
    (none, ⟨st.records.map (fun m => if m.ID = id then ⟨m.ID, role, m.PubKey⟩ else m), st.nextID⟩)
  else
    (some .ErrNotFound, st)

/-- Modelled from the spec: `RemoveID(id)` fails `NotFound` if no record has the ID,
otherwise deletes the record. -/
def MembersStore.RemoveID (st : MembersStore) (id : Int) : Option GoError × MembersStore :=
  if st.records.any (fun m => decide (m.ID = id)) then
    (none, ⟨st.records.filter (fun m => decide (m.ID ≠ id)), st.nextID⟩)
  else
    (some .ErrNotFound, st)

/-- Modelled from the spec: `List()` gives the records in store order. -/
def MembersStore.List (st : MembersStore) : Except GoError (List Member) :=
  .ok st.records

/-- A feed reference parser for the examples: it knows one textual reference. -/
def demoParseFeedRef (s : String) : Except GoError FeedRef :=
  if s = "@peer.ed25519" then .ok peerFeed else .error (.errorString "feedRef: couldn't parse")

/-- A role parser for the examples. -/
def demoUnmarshalText (s : String) : Except GoError Role :=
  if s = "member" then .ok .RoleMember
  else if s = "moderator" then .ok .RoleModerator
  else if s = "admin" then .ok .RoleAdmin
  else .error (.errorString "unknown member role")

/-- A members handler over the spec-modelled membership store. -/
def demoHandler : membersHandler MembersStore :=
  ⟨⟨MembersStore.Add, MembersStore.SetRole, MembersStore.RemoveID, MembersStore.List⟩,
    demoParseFeedRef, demoUnmarshalText, fun _ => "/admin/member"⟩

/-- A members handler whose store fails every operation with an input/output error. -/
def brokenHandler : membersHandler MembersStore :=
  ⟨⟨fun st _ _ => (.error (.errorString "database is locked"), st),
     fun st _ _ => (some (.errorString "database is locked"), st),
     fun st _ => (some (.errorString "database is locked"), st),
     fun _ => .error (.errorString "database is locked")⟩,
    demoParseFeedRef, demoUnmarshalText, fun _ => "/admin/member"⟩

/-- A store holding the peer as its only member, with ID 1. -/
def peerStore : MembersStore := (MembersStore.empty.Add peerFeed .RoleMember).2

/-- A POST request with the given form values, sent by the given current member. -/
def postRequest (form : Values) (currentMember : Option Member) : Request :=
  ⟨"POST", .ok form, form, currentMember⟩

/-- A POST request whose body `id=1&a=%zz` fails to parse after the pair `id=1` was read. -/
def brokenFormRequest : Request :=
  ⟨"POST", .error (.errorString "invalid URL escape", [("id", ["1"])]), [], none⟩

/-- A store holding three members, inserted in the order of their IDs. -/
def threeStore : MembersStore :=
  ⟨[⟨1, .RoleAdmin, selfFeed⟩, ⟨2, .RoleMember, peerFeed⟩, ⟨3, .RoleModerator, ⟨[9], "ed25519"⟩⟩], 4⟩

/-- A pagination helper for the examples: it keeps the list and the count it is handed. -/
def demoPaginate (lst : List Member) (count : Nat) (_ : Values) :
    Except GoError (List Member × Nat) :=
  .ok (lst, count)

/-! ## The connection gate -/

theorem mkHandler_of_self (s : Server) (addr : String) (remote : FeedRef)
    (hconn : s.GetFeedRefFromAddr addr = .ok remote)
    (hself : s.keyPairFeed.Equal remote = true) :
    mkHandler s addr = ⟨some .master, none, [.GetFeedRefFromAddr addr]⟩ := by
  simp [mkHandler, hconn, hself]

theorem mkHandler_of_modeError (s : Server) (addr : String) (remote : FeedRef) (e : GoError)
    (hconn : s.GetFeedRefFromAddr addr = .ok remote)
    (hne : s.keyPairFeed.Equal remote = false)
    (hpm : s.GetPrivacyMode = .error e) :
    mkHandler s addr = ⟨none, some (.errorString "running with unknown privacy mode"),
      [.GetFeedRefFromAddr addr, .GetPrivacyMode]⟩ := by
  simp [mkHandler, hconn, hne, hpm]

theorem mkHandler_of_notRestricted (s : Server) (addr : String) (remote : FeedRef)
    (pm : PrivacyMode)
    (hconn : s.GetFeedRefFromAddr addr = .ok remote)
    (hne : s.keyPairFeed.Equal remote = false)
    (hpm : s.GetPrivacyMode = .ok pm) (hmode : pm ≠ .ModeRestricted) :
    mkHandler s addr = ⟨some .public, none, [.GetFeedRefFromAddr addr, .GetPrivacyMode]⟩ := by
  simp [mkHandler, hconn, hne, hpm, hmode]

theorem mkHandler_of_restricted_member (s : Server) (addr : String) (remote : FeedRef)
    (m : Member)
    (hconn : s.GetFeedRefFromAddr addr = .ok remote)
    (hne : s.keyPairFeed.Equal remote = false)
    (hpm : s.GetPrivacyMode = .ok .ModeRestricted) (hm : s.GetByFeed remote = .ok m) :
    mkHandler s addr = ⟨some .public, none,
      [.GetFeedRefFromAddr addr, .GetPrivacyMode, .GetByFeed remote]⟩ := by
  simp [mkHandler, hconn, hne, hpm, hm]

theorem mkHandler_of_restricted_nonmember (s : Server) (addr : String) (remote : FeedRef)
    (e : GoError)
    (hconn : s.GetFeedRefFromAddr addr = .ok remote)
    (hne : s.keyPairFeed.Equal remote = false)
    (hpm : s.GetPrivacyMode = .ok .ModeRestricted) (hm : s.GetByFeed remote = .error e) :
    mkHandler s addr = ⟨none, some (.errorString "access restricted to members"),
      [.GetFeedRefFromAddr addr, .GetPrivacyMode, .GetByFeed remote]⟩ := by
  simp [mkHandler, hconn, hne, hpm, hm]

theorem MembersStore.getByFeed_empty (ref : FeedRef) :
    MembersStore.empty.GetByFeed ref = .error .ErrNotFound := by
  simp [MembersStore.GetByFeed, MembersStore.empty]

theorem MembersStore.getByFeed_add_empty (ref : FeedRef) (role : Role) :
    (MembersStore.empty.Add ref role).2.GetByFeed ref = .ok ⟨1, role, ref⟩ := by
  simp [MembersStore.GetByFeed, MembersStore.Add, MembersStore.empty]

/-- C1: a connection whose remote identity equals the identity of the server is given
the master handler and no error, whatever the configuration read gives (a mode or an
error) and whatever the membership store answers; the call log shows that neither the
privacy mode nor the membership store is consulted. -/
theorem mkHandler_self_gets_master (self remote : FeedRef) (addr : String)
    (getRef : String → Except GoError FeedRef) (pm : Except GoError PrivacyMode)
    (store : FeedRef → Except GoError Member)
    (hconn : getRef addr = .ok remote) (hself : self.Equal remote = true) :
    mkHandler ⟨self, getRef, pm, store⟩ addr
      = ⟨some .master, none, [.GetFeedRefFromAddr addr]⟩ :=
  mkHandler_of_self ⟨self, getRef, pm, store⟩ addr remote hconn hself

theorem mkHandler_self_gets_master_witness :
    demoGetFeedRef "self" = .ok selfFeed ∧ selfFeed.Equal selfFeed = true ∧
    mkHandler ⟨selfFeed, demoGetFeedRef, .ok .ModeRestricted, MembersStore.empty.GetByFeed⟩ "self"
      = ⟨some .master, none, [.GetFeedRefFromAddr "self"]⟩ ∧
    mkHandler ⟨selfFeed, demoGetFeedRef, .error .ErrNotFound, MembersStore.empty.GetByFeed⟩ "self"
      = ⟨some .master, none, [.GetFeedRefFromAddr "self"]⟩ :=
  ⟨by decide, by decide,
   mkHandler_self_gets_master selfFeed selfFeed "self" demoGetFeedRef _ _ (by decide) (by decide),
   mkHandler_self_gets_master selfFeed selfFeed "self" demoGetFeedRef _ _ (by decide) (by decide)⟩

/-- C2: for a remote identity different from the server's own under mode Restricted, the
gate returns the public handler exactly when the lookup `GetByFeed` succeeds, and
otherwise no handler and the error "access restricted to members".  With the membership
store of the spec: on the empty store the peer is denied, and once it has been added it
is given the public handler. -/
theorem mkHandler_restricted_members_only (s : Server) (addr : String) (remote : FeedRef)
    (hconn : s.GetFeedRefFromAddr addr = .ok remote)
    (hne : s.keyPairFeed.Equal remote = false)
    (hpm : s.GetPrivacyMode = .ok .ModeRestricted) :
    (∀ m, s.GetByFeed remote = .ok m →
      mkHandler s addr = ⟨some .public, none,
        [.GetFeedRefFromAddr addr, .GetPrivacyMode, .GetByFeed remote]⟩) ∧
    (∀ e, s.GetByFeed remote = .error e →
      mkHandler s addr = ⟨none, some (.errorString "access restricted to members"),
        [.GetFeedRefFromAddr addr, .GetPrivacyMode, .GetByFeed remote]⟩) ∧
    ((mkHandler s addr).handler = some .public ↔ ∃ m, s.GetByFeed remote = .ok m) ∧
    (s.GetByFeed = MembersStore.empty.GetByFeed →
      mkHandler s addr = ⟨none, some (.errorString "access restricted to members"),
        [.GetFeedRefFromAddr addr, .GetPrivacyMode, .GetByFeed remote]⟩) ∧
    (s.GetByFeed = (MembersStore.empty.Add remote .RoleMember).2.GetByFeed →
      mkHandler s addr = ⟨some .public, none,
        [.GetFeedRefFromAddr addr, .GetPrivacyMode, .GetByFeed remote]⟩) := by
  refine ⟨fun m hm => mkHandler_of_restricted_member s addr remote m hconn hne hpm hm,
    fun e he => mkHandler_of_restricted_nonmember s addr remote e hconn hne hpm he, ?_, ?_, ?_⟩
  · cases hm : s.GetByFeed remote with
    | error e => simp [mkHandler_of_restricted_nonmember s addr remote e hconn hne hpm hm]
    | ok m => simp [mkHandler_of_restricted_member s addr remote m hconn hne hpm hm]
  · intro hst
    exact mkHandler_of_restricted_nonmember s addr remote _ hconn hne hpm
      (by rw [hst]; exact MembersStore.getByFeed_empty remote)
  · intro hst
    exact mkHandler_of_restricted_member s addr remote _ hconn hne hpm
      (by rw [hst]; exact MembersStore.getByFeed_add_empty remote .RoleMember)

theorem mkHandler_restricted_members_only_witness :
    mkHandler (demoServer (.ok .ModeRestricted) MembersStore.empty) "peer"
      = ⟨none, some (.errorString "access restricted to members"),
        [.GetFeedRefFromAddr "peer", .GetPrivacyMode, .GetByFeed peerFeed]⟩ ∧
    mkHandler (demoServer (.ok .ModeRestricted)
        (MembersStore.empty.Add peerFeed .RoleMember).2) "peer"
      = ⟨some .public, none,
        [.GetFeedRefFromAddr "peer", .GetPrivacyMode, .GetByFeed peerFeed]⟩ :=
  ⟨(mkHandler_restricted_members_only (demoServer (.ok .ModeRestricted) MembersStore.empty)
      "peer" peerFeed (by decide) (by decide) rfl).2.2.2.1 rfl,
   (mkHandler_restricted_members_only (demoServer (.ok .ModeRestricted)
      (MembersStore.empty.Add peerFeed .RoleMember).2)
      "peer" peerFeed (by decide) (by decide) rfl).2.2.2.2 rfl⟩

/-- C3: for a remote identity different from the server's own under mode Open or
Community, the gate returns the public handler and no error; `GetByFeed` does not occur
in the call log and the result is the same for every membership store. -/
theorem mkHandler_open_community_public (self remote : FeedRef) (addr : String)
    (getRef : String → Except GoError FeedRef) (pm : PrivacyMode)
    (store : FeedRef → Except GoError Member)
    (hconn : getRef addr = .ok remote) (hne : self.Equal remote = false)
    (hpm : pm = .ModeOpen ∨ pm = .ModeCommunity) :
    mkHandler ⟨self, getRef, .ok pm, store⟩ addr
      = ⟨some .public, none, [.GetFeedRefFromAddr addr, .GetPrivacyMode]⟩ ∧
    (∀ ref, NetCall.GetByFeed ref ∉ (mkHandler ⟨self, getRef, .ok pm, store⟩ addr).calls) ∧
    (∀ store2 : FeedRef → Except GoError Member,
      mkHandler ⟨self, getRef, .ok pm, store2⟩ addr = mkHandler ⟨self, getRef, .ok pm, store⟩ addr) := by
  have hmode : pm ≠ .ModeRestricted := by
    rcases hpm with h | h <;> simp [h]
  have key : ∀ st : FeedRef → Except GoError Member,
      mkHandler ⟨self, getRef, .ok pm, st⟩ addr
        = ⟨some .public, none, [.GetFeedRefFromAddr addr, .GetPrivacyMode]⟩ :=
    fun st => mkHandler_of_notRestricted ⟨self, getRef, .ok pm, st⟩ addr remote pm hconn hne rfl hmode
  refine ⟨key store, ?_, fun store2 => by rw [key store2, key store]⟩
  intro ref
  rw [key store]
  simp

theorem mkHandler_open_community_public_witness :
    mkHandler ⟨selfFeed, demoGetFeedRef, .ok .ModeOpen, fun _ => .error .ErrNotFound⟩ "peer"
      = ⟨some .public, none, [.GetFeedRefFromAddr "peer", .GetPrivacyMode]⟩ ∧
    mkHandler ⟨selfFeed, demoGetFeedRef, .ok .ModeCommunity, fun _ => .error .ErrNotFound⟩ "peer"
      = ⟨some .public, none, [.GetFeedRefFromAddr "peer", .GetPrivacyMode]⟩ :=
  ⟨(mkHandler_open_community_public selfFeed peerFeed "peer" demoGetFeedRef .ModeOpen _
      (by decide) (by decide) (Or.inl rfl)).1,
   (mkHandler_open_community_public selfFeed peerFeed "peer" demoGetFeedRef .ModeCommunity _
      (by decide) (by decide) (Or.inr rfl)).1⟩

/-- C10: the gate fails closed.  If it returns the master handler, the remote identity
equals the identity of the server; a remote identity different from the server's gets
either the public handler with no error or no handler with an error; and a connection
whose address carries no identity gets no handler and an error, with neither the privacy
mode nor the membership store read. -/
theorem mkHandler_fails_closed (s : Server) (addr : String) :
    ((mkHandler s addr).handler = some .master →
      ∃ remote, s.GetFeedRefFromAddr addr = .ok remote ∧ s.keyPairFeed.Equal remote = true) ∧
    (∀ remote, s.GetFeedRefFromAddr addr = .ok remote → s.keyPairFeed.Equal remote = false →
      ((mkHandler s addr).handler = some .public ∧ (mkHandler s addr).err = none) ∨
      ((mkHandler s addr).handler = none ∧ (mkHandler s addr).err ≠ none)) ∧
    (∀ e, s.GetFeedRefFromAddr addr = .error e →
      mkHandler s addr
        = ⟨none, some (.wrapped "sbot: expected an address containing an shs-bs addr" e),
          [.GetFeedRefFromAddr addr]⟩) := by
  have cases_nonself : ∀ remote, s.GetFeedRefFromAddr addr = .ok remote →
      s.keyPairFeed.Equal remote = false →
      ((mkHandler s addr).handler = some .public ∧ (mkHandler s addr).err = none) ∨
      ((mkHandler s addr).handler = none ∧ (mkHandler s addr).err ≠ none) := by
    intro remote hconn hne
    cases hpm : s.GetPrivacyMode with
    | error e => simp [mkHandler_of_modeError s addr remote e hconn hne hpm]
    | ok pm =>
      by_cases hmode : pm = .ModeRestricted
      · subst hmode
        cases hm : s.GetByFeed remote with
        | error e => simp [mkHandler_of_restricted_nonmember s addr remote e hconn hne hpm hm]
        | ok m => simp [mkHandler_of_restricted_member s addr remote m hconn hne hpm hm]
      · simp [mkHandler_of_notRestricted s addr remote pm hconn hne hpm hmode]
  refine ⟨?_, cases_nonself, ?_⟩
  · intro hmaster
    cases hconn : s.GetFeedRefFromAddr addr with
    | error e => simp [mkHandler, hconn] at hmaster
    | ok remote =>
      refine ⟨remote, rfl, ?_⟩
      cases hEq : s.keyPairFeed.Equal remote with
      | true => rfl
      | false =>
        rcases cases_nonself remote hconn hEq with h | h
        · rw [h.1] at hmaster; cases hmaster
        · rw [h.1] at hmaster; cases hmaster
  · intro e he
    simp [mkHandler, he]

theorem mkHandler_fails_closed_witness :
    (∃ remote, demoGetFeedRef "self" = .ok remote ∧ selfFeed.Equal remote = true) ∧
    (((mkHandler (demoServer (.ok .ModeRestricted) MembersStore.empty) "peer").handler
        = some .public ∧
      (mkHandler (demoServer (.ok .ModeRestricted) MembersStore.empty) "peer").err = none) ∨
     ((mkHandler (demoServer (.ok .ModeRestricted) MembersStore.empty) "peer").handler = none ∧
      (mkHandler (demoServer (.ok .ModeRestricted) MembersStore.empty) "peer").err ≠ none)) ∧
    mkHandler (demoServer (.ok .ModeOpen) MembersStore.empty) "tcp:10.0.0.1:8008"
      = ⟨none, some (.wrapped "sbot: expected an address containing an shs-bs addr"
          (.errorString "not a secret-handshake address")),
        [.GetFeedRefFromAddr "tcp:10.0.0.1:8008"]⟩ :=
  ⟨(mkHandler_fails_closed (demoServer (.ok .ModeOpen) MembersStore.empty) "self").1 (by decide),
   (mkHandler_fails_closed (demoServer (.ok .ModeRestricted) MembersStore.empty) "peer").2.1
      peerFeed (by decide) (by decide),
   (mkHandler_fails_closed (demoServer (.ok .ModeOpen) MembersStore.empty)
      "tcp:10.0.0.1:8008").2.2 _ (by decide)⟩

/-! ## Evaluations of `ParseInt` -/

theorem ParseInt_evaluations :
    ParseInt "" = .error (.errorString "invalid syntax") ∧
    ParseInt "abc" = .error (.errorString "invalid syntax") ∧
    ParseInt "12x" = .error (.errorString "invalid syntax") ∧
    ParseInt "-" = .error (.errorString "invalid syntax") ∧
    ParseInt "42" = .ok 42 ∧
    ParseInt "+7" = .ok 7 ∧
    ParseInt "-9223372036854775808" = .ok (-9223372036854775808) ∧
    ParseInt "9223372036854775807" = .ok 9223372036854775807 ∧
    ParseInt "9223372036854775808" = .error (.errorString "value out of range") ∧
    ParseInt "99999999999999999999999" = .error (.errorString "value out of range") := by
  decide

/-! ## The members admin handlers -/

/-- C5: `changeRole` calls the store only for a request whose current member holds the
role Admin; a POST request with a parseable form whose current member is absent or holds
another role is answered 403 with `ErrForbidden` "not an admin", and the store is neither
called nor changed, whatever the `id` and `role` values of the request. -/
theorem changeRole_requires_admin {σ : Type} (h : membersHandler σ) (st : σ) (req : Request) :
    ((h.changeRole st req).calls ≠ [] →
      ∃ m, req.currentMember = some m ∧ m.Role = Role.RoleAdmin) ∧
    (∀ form, req.Method = "POST" → req.ParseForm = .ok form →
      (req.currentMember = none ∨ ∃ m, req.currentMember = some m ∧ m.Role ≠ Role.RoleAdmin) →
      (h.changeRole st req).resp = .Error 403 (.ErrForbidden (.errorString "not an admin")) ∧
      (h.changeRole st req).db = st ∧ (h.changeRole st req).calls = []) ∧
    (∀ id role, DBCall.SetRole id role ∈ (h.changeRole st req).calls →
      ∃ m, req.currentMember = some m ∧ m.Role = Role.RoleAdmin) := by
  have hany : (h.changeRole st req).calls ≠ [] →
      ∃ m, req.currentMember = some m ∧ m.Role = Role.RoleAdmin := by
    intro hcalls
    unfold membersHandler.changeRole at hcalls
    split at hcalls
    · simp at hcalls
    · split at hcalls
      · simp at hcalls
      · cases hm : req.currentMember with
        | none => simp [hm] at hcalls
        | some m =>
          refine ⟨m, rfl, ?_⟩
          by_contra hrole
          simp [hm, hrole] at hcalls
  refine ⟨hany, ?_, fun id role hmem => hany (List.ne_nil_of_mem hmem)⟩
  · intro form hpost hform hmem
    unfold membersHandler.changeRole
    rcases hmem with hnone | ⟨m, hm, hrole⟩
    · simp [hpost, hform, hnone]
    · simp [hpost, hform, hm, hrole]

theorem changeRole_requires_admin_witness :
    (∃ m, (postRequest [("id", ["1"]), ("role", ["admin"])]
        (some ⟨9, .RoleAdmin, selfFeed⟩)).currentMember = some m ∧ m.Role = Role.RoleAdmin) ∧
    ((demoHandler.changeRole peerStore
        (postRequest [("id", ["1"]), ("role", ["admin"])] (some ⟨1, .RoleModerator, peerFeed⟩))).resp
        = .Error 403 (.ErrForbidden (.errorString "not an admin")) ∧
      (demoHandler.changeRole peerStore
        (postRequest [("id", ["1"]), ("role", ["admin"])] (some ⟨1, .RoleModerator, peerFeed⟩))).db
        = peerStore ∧
      (demoHandler.changeRole peerStore
        (postRequest [("id", ["1"]), ("role", ["admin"])] (some ⟨1, .RoleModerator, peerFeed⟩))).calls
        = []) :=
  ⟨(changeRole_requires_admin demoHandler peerStore
      (postRequest [("id", ["1"]), ("role", ["admin"])] (some ⟨9, .RoleAdmin, selfFeed⟩))).1
      (by decide),
   (changeRole_requires_admin demoHandler peerStore
      (postRequest [("id", ["1"]), ("role", ["admin"])] (some ⟨1, .RoleModerator, peerFeed⟩))).2.1
      _ rfl rfl (Or.inr ⟨_, rfl, by decide⟩)⟩

/-- C6: for a POST request to `add` with a parseable form: an unparseable `pub_key` is
answered 400 with `ErrBadRequest` for "Public Key" and `Add` is not called; a parsed key
whose `Add` fails with an `ErrAlreadyAdded` is answered 400, with any other error 500;
and the response has status 302 only when `Add` succeeded, in which case it is the
redirect to /admin/members. -/
theorem add_outcomes {σ : Type} (h : membersHandler σ) (st : σ) (req : Request) (form : Values)
    (hpost : req.Method = "POST") (hform : req.ParseForm = .ok form) :
    (∀ e, h.ParseFeedRef (Values.Get form "pub_key") = .error e →
      (h.add st req).resp = .Error 400 (.ErrBadRequest "Public Key" e) ∧
      (h.add st req).db = st ∧ (h.add st req).calls = []) ∧
    (∀ ref e st1, h.ParseFeedRef (Values.Get form "pub_key") = .ok ref →
      h.db.Add st ref .RoleMember = (.error e, st1) →
      (errorsAsAlreadyAdded e = true → (h.add st req).resp = .Error 400 e) ∧
      (errorsAsAlreadyAdded e = false → (h.add st req).resp = .Error 500 e)) ∧
    (∀ ref id st1, h.ParseFeedRef (Values.Get form "pub_key") = .ok ref →
      h.db.Add st ref .RoleMember = (.ok id, st1) →
      (h.add st req).resp = .Redirect "/admin/members" 302 ∧
      (h.add st req).db = st1 ∧ (h.add st req).calls = [.Add ref .RoleMember]) ∧
    ((h.add st req).resp.status = 302 →
      (h.add st req).resp = .Redirect "/admin/members" 302 ∧
      ∃ ref id st1, h.ParseFeedRef (Values.Get form "pub_key") = .ok ref ∧
        h.db.Add st ref .RoleMember = (.ok id, st1)) := by
  refine ⟨?_, ?_, ?_, ?_⟩
  · intro e he
    simp [membersHandler.add, hpost, hform, he]
  · intro ref e st1 href hadd
    constructor
    · intro hAs
      simp [membersHandler.add, hpost, hform, href, hadd, hAs]
    · intro hAs
      simp [membersHandler.add, hpost, hform, href, hadd, hAs]
  · intro ref id st1 href hadd
    simp [membersHandler.add, hpost, hform, href, hadd, redirectToMembers]
  · intro hstatus
    cases href : h.ParseFeedRef (Values.Get form "pub_key") with
    | error e =>
      simp [membersHandler.add, hpost, hform, href, Response.status] at hstatus
    | ok ref =>
      rcases hadd : h.db.Add st ref .RoleMember with ⟨res, st1⟩
      cases res with
      | error e =>
        by_cases hAs : errorsAsAlreadyAdded e = true
        · simp [membersHandler.add, hpost, hform, href, hadd, hAs, Response.status] at hstatus
        · simp [membersHandler.add, hpost, hform, href, hadd, hAs, Response.status] at hstatus
      | ok id =>
        refine ⟨?_, ref, id, st1, rfl, hadd⟩
        simp [membersHandler.add, hpost, hform, href, hadd, redirectToMembers]

theorem add_outcomes_witness :
    ((demoHandler.add MembersStore.empty (postRequest [("pub_key", ["not a key"])] none)).resp
        = .Error 400 (.ErrBadRequest "Public Key" (.errorString "feedRef: couldn't parse")) ∧
      (demoHandler.add MembersStore.empty (postRequest [("pub_key", ["not a key"])] none)).db
        = MembersStore.empty ∧
      (demoHandler.add MembersStore.empty (postRequest [("pub_key", ["not a key"])] none)).calls
        = []) ∧
    (demoHandler.add peerStore (postRequest [("pub_key", ["@peer.ed25519"])] none)).resp
        = .Error 400 (.ErrAlreadyAdded peerFeed) ∧
    (brokenHandler.add peerStore (postRequest [("pub_key", ["@peer.ed25519"])] none)).resp
        = .Error 500 (.errorString "database is locked") ∧
    (demoHandler.add MembersStore.empty (postRequest [("pub_key", ["@peer.ed25519"])] none)).resp
        = .Redirect "/admin/members" 302 :=
  ⟨(add_outcomes demoHandler MembersStore.empty (postRequest [("pub_key", ["not a key"])] none)
      _ rfl rfl).1 _ (by decide),
   ((add_outcomes demoHandler peerStore (postRequest [("pub_key", ["@peer.ed25519"])] none)
      _ rfl rfl).2.1 peerFeed (.ErrAlreadyAdded peerFeed) peerStore (by decide) (by decide)).1
      (by decide),
   ((add_outcomes brokenHandler peerStore (postRequest [("pub_key", ["@peer.ed25519"])] none)
      _ rfl rfl).2.1 peerFeed (.errorString "database is locked") peerStore
      (by decide) (by decide)).2 (by decide),
   ((add_outcomes demoHandler MembersStore.empty
      (postRequest [("pub_key", ["@peer.ed25519"])] none)
      _ rfl rfl).2.2.1 peerFeed 1 peerStore (by decide) (by decide)).1⟩

/-- C7: at the malformed id "abc" the code does not do what the claim says.  `remove`
answers with the redirect to /admin/members with status 302, which is not a 4xx status
and is the very response of a successful removal; `RemoveID` is not called.  The sibling
handler `changeRole` answers a malformed id with 400 and an `ErrBadRequest`. -/
theorem remove_malformed_id_evaluation :
    ParseInt "abc" = .error (.errorString "invalid syntax") ∧
    (demoHandler.remove peerStore (postRequest [("id", ["abc"])] none)).resp
      = .Redirect "/admin/members" 302 ∧
    (demoHandler.remove peerStore (postRequest [("id", ["abc"])] none)).calls = [] ∧
    (demoHandler.remove peerStore (postRequest [("id", ["abc"])] none)).db = peerStore ∧
    ¬ (400 ≤ (demoHandler.remove peerStore (postRequest [("id", ["abc"])] none)).resp.status ∧
       (demoHandler.remove peerStore (postRequest [("id", ["abc"])] none)).resp.status < 500) ∧
    (demoHandler.remove peerStore (postRequest [("id", ["abc"])] none)).resp
      = (demoHandler.remove peerStore (postRequest [("id", ["1"])] none)).resp ∧
    (demoHandler.remove peerStore (postRequest [("id", ["1"])] none)).calls = [.RemoveID 1] ∧
    (demoHandler.changeRole peerStore
        (postRequest [("id", ["abc"]), ("role", ["admin"])] (some ⟨9, .RoleAdmin, selfFeed⟩))).resp
      = .Error 400 (.ErrBadRequest "id" (.errorString "invalid syntax")) := by
  decide

/-- C8, as stated, fails: when `req.ParseForm()` fails after the pair `id=1` was read, the
id form value parses as 1, yet `remove` returns before reading it and `RemoveID` is not
called. -/
theorem remove_unparsed_form_counterexample :
    ParseInt (Values.Get brokenFormRequest.Form "id") = .ok 1 ∧
    (demoHandler.remove peerStore brokenFormRequest).calls = [] ∧
    (demoHandler.remove peerStore brokenFormRequest).db = peerStore ∧
    ¬ (∀ (h : membersHandler MembersStore) (st : MembersStore) (req : Request) (n : Int),
        ParseInt (Values.Get req.Form "id") = .ok n →
        (h.remove st req).calls = [.RemoveID n]) := by
  refine ⟨by decide, by decide, by decide, ?_⟩
  intro hall
  have h1 := hall demoHandler peerStore brokenFormRequest 1 (by decide)
  revert h1
  decide

/-- C8, amended: a request to `remove` whose form parses and whose id value parses as the
64-bit integer `n` calls `RemoveID` exactly once, with `n`, and the response follows its
result: success gives the redirect to /admin/members with status 302, an error that is
`ErrNotFound` the same redirect with status 404, and any other error the response 500
with that error. -/
theorem remove_outcomes {σ : Type} (h : membersHandler σ) (st : σ) (req : Request)
    (form : Values) (n : Int)
    (hform : req.ParseForm = .ok form) (hid : ParseInt (Values.Get form "id") = .ok n) :
    (h.remove st req).calls = [.RemoveID n] ∧
    (h.remove st req).db = (h.db.RemoveID st n).2 ∧
    ((h.db.RemoveID st n).1 = none →
      (h.remove st req).resp = .Redirect "/admin/members" 302) ∧
    (∀ e, (h.db.RemoveID st n).1 = some e → errorsIsNotFound e = true →
      (h.remove st req).resp = .Redirect "/admin/members" 404) ∧
    (∀ e, (h.db.RemoveID st n).1 = some e → errorsIsNotFound e = false →
      (h.remove st req).resp = .Error 500 e) := by
  rcases hrem : h.db.RemoveID st n with ⟨res, st1⟩
  cases res with
  | none => simp [membersHandler.remove, hform, hid, hrem, redirectToMembers]
  | some err =>
    by_cases hnf : errorsIsNotFound err = true
    · simp [membersHandler.remove, hform, hid, hrem, hnf, redirectToMembers]
    · simp [membersHandler.remove, hform, hid, hrem, hnf, redirectToMembers]

theorem remove_outcomes_witness :
    ParseInt (Values.Get [("id", ["1"])] "id") = .ok 1 ∧
    (demoHandler.remove peerStore (postRequest [("id", ["1"])] none)).calls = [.RemoveID 1] ∧
    (demoHandler.remove peerStore (postRequest [("id", ["1"])] none)).resp
      = .Redirect "/admin/members" 302 ∧
    (demoHandler.remove MembersStore.empty (postRequest [("id", ["1"])] none)).resp
      = .Redirect "/admin/members" 404 ∧
    (brokenHandler.remove peerStore (postRequest [("id", ["1"])] none)).resp
      = .Error 500 (.errorString "database is locked") :=
  ⟨by decide,
   (remove_outcomes demoHandler peerStore (postRequest [("id", ["1"])] none)
      [("id", ["1"])] 1 rfl (by decide)).1,
   (remove_outcomes demoHandler peerStore (postRequest [("id", ["1"])] none)
      [("id", ["1"])] 1 rfl (by decide)).2.2.1 (by decide),
   (remove_outcomes demoHandler MembersStore.empty (postRequest [("id", ["1"])] none)
      [("id", ["1"])] 1 rfl (by decide)).2.2.2.1 .ErrNotFound (by decide) (by decide),
   (remove_outcomes brokenHandler peerStore (postRequest [("id", ["1"])] none)
      [("id", ["1"])] 1 rfl (by decide)).2.2.2.2 (.errorString "database is locked")
      (by decide) (by decide)⟩

/-! ## The reversal loop of `overview` -/

theorem swapAt_ends {α : Type} (pre mid post : List α) (a b : α) :
    swapAt (pre ++ (a :: (mid ++ b :: post))) pre.length (pre.length + mid.length + 1)
      = some (pre ++ (b :: (mid ++ a :: post))) := by
  have hsub : pre.length + mid.length + 1 - pre.length = mid.length + 1 := by omega
  have h1 : (pre ++ (a :: (mid ++ b :: post)))[pre.length]? = some a := by
    rw [List.getElem?_append_right (le_refl _)]
    simp
  have h2 : (pre ++ (a :: (mid ++ b :: post)))[pre.length + mid.length + 1]? = some b := by
    rw [List.getElem?_append_right (by omega), hsub, List.getElem?_cons_succ,
      List.getElem?_append_right (le_refl _)]
    simp
  unfold swapAt
  rw [h1, h2]
  simp only [Option.some.injEq]
  rw [List.set_append_right _ _ (le_refl _)]
  simp only [Nat.sub_self, List.set_cons_zero]
  rw [List.set_append_right _ _ (by omega), hsub, List.set_cons_succ,
    List.set_append_right _ _ (le_refl _)]
  simp

theorem reverseLoop_middle {α : Type} (n : Nat) :
    ∀ (pre mid post : List α), mid.length = n →
      reverseLoop (pre ++ (mid ++ post)) pre.length (((pre.length + mid.length : Nat) : Int) - 1)
        = some (pre ++ (mid.reverse ++ post)) := by
  induction n using Nat.strong_induction_on with
  | _ n ih =>
    intro pre mid post hlen
    match mid, hlen with
    | [], _ =>
      rw [reverseLoop]
      simp
    | [a], _ =>
      rw [reverseLoop]
      simp
    | a :: c :: rest, hlen =>
      rcases List.eq_nil_or_concat (c :: rest) with h | ⟨mid1, b, h⟩
      · cases h
      · rw [List.concat_eq_append] at h
        rw [h] at hlen ⊢
        simp only [List.length_cons, List.length_append, List.length_nil] at hlen
        rw [reverseLoop]
        have hlt : (pre.length : Int)
            < ((pre.length + (a :: (mid1 ++ [b])).length : Nat) : Int) - 1 := by
          simp only [List.length_cons, List.length_append, List.length_nil]
          omega
        rw [if_pos hlt]
        have hj : ((((pre.length + (a :: (mid1 ++ [b])).length : Nat) : Int) - 1)).toNat
            = pre.length + mid1.length + 1 := by
          simp only [List.length_cons, List.length_append, List.length_nil]
          omega
        rw [hj]
        have hshape : pre ++ (a :: (mid1 ++ [b]) ++ post) = pre ++ (a :: (mid1 ++ b :: post)) := by
          simp
        rw [hshape, swapAt_ends]
        simp only
        have hrec := ih mid1.length (by omega) (pre ++ [b]) mid1 (a :: post) rfl
        have e1 : (pre ++ [b]).length = pre.length + 1 := by simp
        have e2 : (((pre ++ [b]).length + mid1.length : Nat) : Int) - 1
            = ((pre.length + (a :: (mid1 ++ [b])).length : Nat) : Int) - 1 - 1 := by
          simp only [List.length_cons, List.length_append, List.length_nil]
          omega
        rw [e2, e1] at hrec
        have e3 : pre ++ [b] ++ (mid1 ++ a :: post) = pre ++ b :: (mid1 ++ a :: post) := by simp
        rw [e3] at hrec
        rw [hrec]
        simp

theorem reverseLoop_eq_reverse {α : Type} (lst : List α) :
    reverseLoop lst 0 ((lst.length : Int) - 1) = some lst.reverse := by
  have h := reverseLoop_middle lst.length [] lst [] rfl
  simpa using h

/-- C9: for every list `lst` returned by the store, the swap loop of `overview` ends
without a panic and leaves the reversed list, which is what `paginate` is handed,
together with its length: the element at position `i` is the element at position
`len-1-i` of the store's list, the length is unchanged and the result is a permutation
of the store's list. -/
theorem overview_reverses_list {σ P : Type} (h : membersHandler σ)
    (paginate : List Member → Nat → Values → Except GoError P) (decorate : P → P)
    (st : σ) (req : Request) (lst : List Member) (hlist : h.db.List st = .ok lst) :
    reverseLoop lst 0 ((lst.length : Int) - 1) = some lst.reverse ∧
    h.overview paginate decorate st req
      = some (match paginate lst.reverse lst.length req.URLQuery with
          | .error err => .error err
          | .ok pageData => .ok (decorate pageData)) ∧
    lst.reverse.length = lst.length ∧ lst.reverse.Perm lst ∧
    (∀ i, i < lst.length → lst.reverse[i]? = lst[lst.length - 1 - i]?) ∧
    lst.reverse.head? = lst.getLast? := by
  refine ⟨reverseLoop_eq_reverse lst, ?_, List.length_reverse lst, List.reverse_perm lst,
    fun i hi => List.getElem?_reverse hi, List.head?_reverse lst⟩
  unfold membersHandler.overview
  rw [hlist]
  simp only [reverseLoop_eq_reverse lst, List.length_reverse]
  cases paginate lst.reverse lst.length req.URLQuery <;> rfl

theorem overview_reverses_list_witness :
    demoHandler.db.List threeStore = .ok threeStore.records ∧
    demoHandler.overview demoPaginate id threeStore (postRequest [] none)
      = some (.ok ([⟨3, .RoleModerator, ⟨[9], "ed25519"⟩⟩, ⟨2, .RoleMember, peerFeed⟩,
          ⟨1, .RoleAdmin, selfFeed⟩], 3)) :=
  ⟨rfl, (overview_reverses_list demoHandler demoPaginate id threeStore (postRequest [] none)
      threeStore.records rfl).2.1⟩

end SsbRoom
